import Mathlib

/-
A shallow embedding of src/Script.py (a Penn State football schedule
scraper).  The embedded parts are: the date/time normalizer
parse_date_time, the season-year resolver get_current_football_season_year,
the per-record schedule-construction loop of scrape_schedule (from the raw
records its line scanner produces), the calendar event filter of
create_calendar, and the publishing gate of update_calendar.

Strings are modelled as lists of characters; Python datetime values as
records of integer fields plus an optional timezone tag; fallible parsing
returns Option.  The regular-expression searches of the source are
translated into explicit scanners that implement the same leftmost-match,
greedy-with-backtracking semantics on the three concrete patterns the
source uses.
-/

namespace Script

/-- Characters of a string literal. -/
def chars (s : String) : List Char := s.data

/-- Python str.lower over our character-list strings. -/
def lowerStr (s : List Char) : List Char := s.map Char.toLower

/-- Python str.upper over our character-list strings. -/
def upperStr (s : List Char) : List Char := s.map Char.toUpper

/-- The whitespace class of Python str.strip and of the regex class \s. -/
def isPySpace (c : Char) : Bool :=
  c == ' ' || c == '\t' || c == '\n' || c == '\r' || c == '\x0b' || c == '\x0c'

/-- Python str.strip. -/
def trimStr (s : List Char) : List Char :=
  ((s.dropWhile isPySpace).reverse.dropWhile isPySpace).reverse

/-- Python str.find: index of the first occurrence of a substring. -/
def findSub (n : List Char) : List Char → Option Nat
  | [] => if n.isEmpty then some 0 else none
  | c :: t => if n.isPrefixOf (c :: t) then some 0 else (findSub n t).map (· + 1)

/-- Python substring containment (the `in` operator on strings). -/
def isSub (n h : List Char) : Bool := (findSub n h).isSome

/-- The regex word-character class \w (ASCII part). -/
def isWordChar (c : Char) : Bool := c.isAlphanum || c == '_'

/-- Word boundary test against the character preceding the current one. -/
def bndBefore (prev : Option Char) : Bool :=
  match prev with
  | none => true
  | some p => !(isWordChar p)

/-- Word boundary test against the suffix after a candidate match. -/
def boundaryAfter (l : List Char) : Bool :=
  match l with
  | [] => true
  | c :: _ => !(isWordChar c)

/-- Numeric value of a digit string. -/
def digitsVal (s : List Char) : Int :=
  s.foldl (fun a c => a * 10 + Int.ofNat (c.toNat - 48)) 0

/-- Python int() applied to an already stripped string: optional sign and
decimal digits, anything else raises (modelled as none). -/
def pyInt (s : List Char) : Option Int :=
  match s with
  | '-' :: rest =>
    if !rest.isEmpty && rest.all Char.isDigit then some (-(digitsVal rest)) else none
  | '+' :: rest =>
    if !rest.isEmpty && rest.all Char.isDigit then some (digitsVal rest) else none
  | _ => if !s.isEmpty && s.all Char.isDigit then some (digitsVal s) else none

/-- Python str.split("/"). -/
def splitSlash : List Char → List (List Char)
  | [] => [[]]
  | c :: rest =>
    if c == '/' then [] :: splitSlash rest
    else
      match splitSlash rest with
      | [] => [[c]]
      | p :: ps => (c :: p) :: ps

/-- Two-digit year normalization from the MM/DD/YY branch of
parse_date_time: `if year < 100: year += 2000`. -/
def normYear (y : Int) : Int := if y < 100 then y + 2000 else y

/-- The MM/DD or MM/DD/YY(YY) branch of parse_date_time (source lines
85-96).  Returns the (month, day, year) options exactly as the Python
locals end up, including the partial assignments left behind when a later
int() conversion raises. -/
def slashParse (ds : List Char) : Option Int × Option Int × Option Int :=
  let parts := (splitSlash ds).map trimStr
  match pyInt (parts.getD 0 []) with
  | none => (none, none, none)
  | some m =>
    match parts.get? 1 with
    | none => (some m, none, none)
    | some p1 =>
      match pyInt p1 with
      | none => (some m, none, none)
      | some d =>
        if 2 < parts.length ∧ parts.getD 2 [] ≠ [] then
          match pyInt (parts.getD 2 []) with
          | none => (some m, some d, none)
          | some y => (some m, some d, some (normYear y))
        else (some m, some d, none)

/-- The month-name table of parse_date_time, in its insertion order. -/
def month_map : List (List Char × Int) :=
  [(chars "january", 1), (chars "jan", 1),
   (chars "february", 2), (chars "feb", 2),
   (chars "march", 3), (chars "mar", 3),
   (chars "april", 4), (chars "apr", 4),
   (chars "may", 5),
   (chars "june", 6), (chars "jun", 6),
   (chars "july", 7), (chars "jul", 7),
   (chars "august", 8), (chars "aug", 8),
   (chars "september", 9), (chars "sep", 9), (chars "sept", 9),
   (chars "october", 10), (chars "oct", 10),
   (chars "november", 11), (chars "nov", 11),
   (chars "december", 12), (chars "dec", 12)]

/-- First month name of the table occurring in the (lowered) date text. -/
def monthFind : List (List Char × Int) → List Char → Option Int
  | [], _ => none
  | (nm, v) :: rest, ls => if isSub nm ls then some v else monthFind rest ls

/-- The month-name search of parse_date_time (source lines 116-119). -/
def monthSearch (ds : List Char) : Option Int := monthFind month_map (lowerStr ds)

/-- Leftmost match of the day regex \b(\d{1,2})\b, with the greedy
two-digit attempt backtracking to one digit exactly as re.search does. -/
def dayScan (prev : Option Char) : List Char → Option Int
  | [] => none
  | c :: rest =>
    if bndBefore prev && c.isDigit then
      match rest with
      | [] => some (digitsVal [c])
      | c2 :: rest2 =>
        if c2.isDigit then
          if boundaryAfter rest2 then some (digitsVal [c, c2])
          else dayScan (some c) rest
        else if !(isWordChar c2) then some (digitsVal [c])
        else dayScan (some c) rest
    else dayScan (some c) rest

/-- Leftmost match of the year regex \b(20\d{2})\b. -/
def yearScan (prev : Option Char) : List Char → Option Int
  | [] => none
  | c :: rest =>
    if bndBefore prev && c == '2' then
      match rest with
      | c2 :: c3 :: c4 :: rest4 =>
        if c2 == '0' && c3.isDigit && c4.isDigit && boundaryAfter rest4 then
          some (digitsVal [c, c2, c3, c4])
        else yearScan (some c) rest
      | _ => yearScan (some c) rest
    else yearScan (some c) rest

/-- The weekday names cleaned up by parse_date_time. -/
def weekdays : List (List Char) :=
  [chars "monday", chars "tuesday", chars "wednesday", chars "thursday",
   chars "friday", chars "saturday", chars "sunday"]

/-- The joined weekday-month cleanup of parse_date_time (source lines
64-76): after the first weekday name found in the text, insert a space if
the following character is not already one, then stop. -/
def fixWeekday : List (List Char) → List Char → List Char
  | [], ds => ds
  | w :: rest, ds =>
    match findSub w (lowerStr ds) with
    | some i =>
      if i + w.length < ds.length ∧ ds.get? (i + w.length) ≠ some ' ' then
        ds.take (i + w.length) ++ ' ' :: ds.drop (i + w.length)
      else fixWeekday rest ds
    | none => fixWeekday rest ds

/-- The combined month/day/year extraction of parse_date_time: the slash
branch first, then the month-name branch only when the slash branch left
month unset (source lines 78-133). -/
def extractDate (ds : List Char) : Option Int × Option Int × Option Int :=
  let slash := if '/' ∈ ds then slashParse ds else (none, none, none)
  match slash with
  | (some m, d, y) => (some m, d, y)
  | (none, _, _) =>
    match monthSearch ds with
    | some mo => (some mo, dayScan none ds, yearScan none ds)
    | none => (none, none, none)

/-- Season-based year inference of parse_date_time when the date text
carries no year (source lines 136-146). -/
def inferYear (fsy m : Int) : Int :=
  if 8 ≤ m then fsy
  else if m ≤ 4 then fsy + 1
  else fsy + 1

/-- Deterministic equivalent of re.search with (\d+):?(\d*)\s*([AP]M)
anchored at one position: maximal digit run, optional colon, maximal digit
run, maximal whitespace, then AM or PM.  (Backtracking cannot rescue a
failure of this greedy scan for this pattern.) -/
def timeMatchAt (s : List Char) : Option (Int × Int × Char) :=
  let p1 := s.span Char.isDigit
  if p1.1 = [] then none
  else
    let r2 := if p1.2.head? == some ':' then p1.2.tail else p1.2
    let p2 := r2.span Char.isDigit
    let r4 := p2.2.dropWhile isPySpace
    match r4 with
    | a :: m :: _ =>
      if (a == 'A' || a == 'P') && m == 'M' then
        some (digitsVal p1.1, digitsVal p2.1, a)
      else none
    | _ => none

/-- Leftmost match of (\d+):?(\d*)\s*([AP]M)  (source line 165). -/
def timeScanA : List Char → Option (Int × Int × Char)
  | [] => none
  | c :: rest =>
    if c.isDigit then
      match timeMatchAt (c :: rest) with
      | some r => some r
      | none => timeScanA rest
    else timeScanA rest

/-- One-position attempt for the fallback regex (\d+)\s*[AP]M. -/
def timeMatchBAt (s : List Char) : Option Int :=
  let p1 := s.span Char.isDigit
  if p1.1 = [] then none
  else
    let r4 := p1.2.dropWhile isPySpace
    match r4 with
    | a :: m :: _ =>
      if (a == 'A' || a == 'P') && m == 'M' then some (digitsVal p1.1) else none
    | _ => none

/-- Leftmost match of (\d+)\s*[AP]M  (source line 180). -/
def timeScanB : List Char → Option Int
  | [] => none
  | c :: rest =>
    if c.isDigit then
      match timeMatchBAt (c :: rest) with
      | some r => some r
      | none => timeScanB rest
    else timeScanB rest

/-- Strip, uppercase, and cut to the first slash-separated option, as the
time branch of parse_date_time does (source lines 154-158). -/
def timeToken (ts : List Char) : List Char :=
  let t0 := upperStr (trimStr ts)
  if '/' ∈ t0 then trimStr (t0.takeWhile (fun c => c != '/')) else t0

/-- 12-hour adjustment for the matched AM/PM group (source lines 172-177). -/
def adjustHour12 (ap : Char) (h : Int) : Int :=
  if ap == 'P' ∧ h < 12 then h + 12
  else if ap == 'A' ∧ h = 12 then 0
  else h

/-- 12-hour adjustment of the fallback branch, which looks for AM/PM as a
substring of the whole time token (source lines 184-187). -/
def adjustHourText (t : List Char) (h : Int) : Int :=
  if isSub (chars "PM") t ∧ h < 12 then h + 12
  else if isSub (chars "AM") t ∧ h = 12 then 0
  else h

/-- The whole time branch of parse_date_time (source lines 150-187):
default 13:00, kept for empty/TBA/TBD text; noon check on the first
slash-option; then the two regex attempts. -/
def parseTime (ts : List Char) : Int × Int :=
  if ts = [] ∨ lowerStr ts = chars "tba" ∨ lowerStr ts = chars "tbd" then (13, 0)
  else
    if isSub (chars "NOON") (timeToken ts) then (12, 0)
    else
      match timeScanA (timeToken ts) with
      | some r => (adjustHour12 r.2.2 r.1, r.2.1)
      | none =>
        match timeScanB (timeToken ts) with
        | some h => (adjustHourText (timeToken ts) h, 0)
        | none => (13, 0)

/-- Timezone tag carried by an aware datetime; the source only ever
localizes to US/Eastern. -/
inductive TzInfo
  | eastern
deriving DecidableEq

/-- A Python datetime.datetime: wall-clock fields plus an optional tzinfo
(none models a naive datetime). -/
structure PyDateTime where
  year : Int
  month : Int
  day : Int
  hour : Int
  minute : Int
  tz : Option TzInfo
deriving DecidableEq

/-- A Python datetime.date, as consumed by the season-year resolver. -/
structure PyDate where
  year : Int
  month : Int
  day : Int
deriving DecidableEq

/-- Gregorian leap-year rule (datetime's calendar). -/
def isLeapYear (y : Int) : Bool :=
  y % 4 == 0 && (y % 100 != 0 || y % 400 == 0)

/-- Days in a month of the proleptic Gregorian calendar. -/
def daysInMonth (y m : Int) : Int :=
  if m = 2 then (if isLeapYear y then 29 else 28)
  else if m = 4 ∨ m = 6 ∨ m = 9 ∨ m = 11 then 30
  else 31

/-- Validity condition of the datetime.datetime constructor; violating it
raises ValueError in the source, which parse_date_time turns into None. -/
abbrev validDT (y m d h mi : Int) : Prop :=
  1 ≤ y ∧ y ≤ 9999 ∧ 1 ≤ m ∧ m ≤ 12 ∧ 1 ≤ d ∧ d ≤ daysInMonth y m ∧
    0 ≤ h ∧ h < 24 ∧ 0 ≤ mi ∧ mi < 60

/-- The simplified Eastern-to-UTC offset of the non-pytz fallback (source
line 201). -/
def utcOffsetFor (m : Int) : Int := if 3 ≤ m ∧ m ≤ 11 then 4 else 5

/-- datetime + timedelta(hours=off) for a valid datetime and a small
positive offset (at most one day of carry), preserving the tzinfo. -/
def addHoursSmall (dt : PyDateTime) (off : Int) : PyDateTime :=
  if dt.hour + off < 24 then { dt with hour := dt.hour + off }
  else
    if dt.day + 1 ≤ daysInMonth dt.year dt.month then
      { dt with hour := dt.hour + off - 24, day := dt.day + 1 }
    else if dt.month = 12 then
      { dt with hour := dt.hour + off - 24, day := 1, month := 1, year := dt.year + 1 }
    else
      { dt with hour := dt.hour + off - 24, day := 1, month := dt.month + 1 }

/-- The datetime-construction tail of parse_date_time (source lines
189-210): with pytz, localize the naive wall time to US/Eastern; without
pytz, shift the naive wall time by the simplified UTC offset and return it
without any tzinfo.  A result past year 9999 models the OverflowError the
shift would raise, which the source turns into None. -/
def mkGameDatetime (hp : Bool) (y m d h mi : Int) : Option PyDateTime :=
  if validDT y m d h mi then
    match hp with
    | true => some ⟨y, m, d, h, mi, some TzInfo.eastern⟩
    | false =>
      if (addHoursSmall ⟨y, m, d, h, mi, none⟩ (utcOffsetFor m)).year ≤ 9999 then
        some (addHoursSmall ⟨y, m, d, h, mi, none⟩ (utcOffsetFor m))
      else none
  else none

/-- parse_date_time with the football season year passed explicitly (the
source computes it from the wall clock on entry; see parse_date_time
below). -/
def parseCore (hp : Bool) (fsy : Int) (date_str time_str : List Char) : Option PyDateTime :=
  match extractDate (fixWeekday weekdays date_str) with
  | (some m, some d, yOpt) =>
    mkGameDatetime hp (yOpt.getD (inferYear fsy m)) m d
      (parseTime time_str).1 (parseTime time_str).2
  | (_, _, _) => none

/-- get_current_football_season_year (source lines 39-52), with the wall
clock made an explicit argument. -/
def get_current_football_season_year (today : PyDate) : Int :=
  if 8 ≤ today.month then today.year
  else if today.month ≤ 1 then today.year - 1
  else today.year

/-- parse_date_time (source lines 54-217).  The Boolean is the module
flag HAS_PYTZ; the PyDate is the wall-clock date datetime.now() would
report, whose only use is the season-year computation. -/
def parse_date_time (hp : Bool) (now : PyDate) (date_str time_str : List Char) :
    Option PyDateTime :=
  parseCore hp (get_current_football_season_year now) date_str time_str

/-- A raw game record as assembled by the line scanner of scrape_schedule:
home/away flag, opponent and location lines, and the time line when one was
found before the next record started (game_data.get falls back to TBA). -/
structure RawGame where
  is_home : Bool
  opponent : List Char
  location : List Char
  time : Option (List Char)
deriving DecidableEq

/-- The game_info dictionary built per record in scrape_schedule. -/
structure GameInfo where
  title : List Char
  start : PyDateTime
  endTime : PyDateTime
  location : List Char
  broadcast : List Char
  is_home : Bool
  opponent : List Char
  date_str : List Char
  time_str : List Char
  special : List Char
deriving DecidableEq

/-- The literal "TBA" used as time fallback and broadcast default. -/
def tbaChars : List Char := chars "TBA"

/-- The literal default date "Sep 1, 2025" of the date mapping. -/
def sep1Chars : List Char := chars "Sep 1, 2025"

/-- The hardcoded opponent-to-date table of scrape_schedule (source lines
332-345). -/
def date_mapping_table : List (List Char × List Char) :=
  [(chars "Nevada", chars "Aug 30, 2025"),
   (chars "FIU", chars "Sep 6, 2025"),
   (chars "Villanova", chars "Sep 13, 2025"),
   (chars "Oregon", chars "Sep 27, 2025"),
   (chars "UCLA", chars "Oct 4, 2025"),
   (chars "Northwestern", chars "Oct 11, 2025"),
   (chars "Iowa", chars "Oct 18, 2025"),
   (chars "Ohio State", chars "Nov 1, 2025"),
   (chars "Indiana", chars "Nov 8, 2025"),
   (chars "Michigan State", chars "Nov 15, 2025"),
   (chars "Nebraska", chars "Nov 22, 2025"),
   (chars "Rutgers", chars "Nov 29, 2025")]

/-- The hardcoded opponent-to-broadcast table (source lines 350-363). -/
def broadcast_mapping_table : List (List Char × List Char) :=
  [(chars "Nevada", chars "CBS"),
   (chars "FIU", chars "Big Ten Network"),
   (chars "Oregon", chars "NBC"),
   (chars "Villanova", chars "TBA"),
   (chars "UCLA", chars "TBA"),
   (chars "Northwestern", chars "TBA"),
   (chars "Iowa", chars "TBA"),
   (chars "Ohio State", chars "TBA"),
   (chars "Indiana", chars "TBA"),
   (chars "Michigan State", chars "TBA"),
   (chars "Nebraska", chars "TBA"),
   (chars "Rutgers", chars "TBA")]

/-- The hardcoded special-event table (source lines 368-376). -/
def special_events_table : List (List Char × List Char) :=
  [(chars "Nevada", chars "107K Family Reunion"),
   (chars "FIU", chars "THON Game"),
   (chars "Villanova", chars "All-U Day"),
   (chars "Oregon", chars "Penn State White Out"),
   (chars "Northwestern", chars "Homecoming & Stripe Out"),
   (chars "Indiana", chars "Helmet Stripe & Military Appreciation"),
   (chars "Nebraska", chars "Senior Day")]

/-- Python dict.get(key, default) over an association table. -/
def lookupD (tbl : List (List Char × List Char)) (k dflt : List Char) : List Char :=
  match tbl.find? (fun p => p.1 == k) with
  | some p => p.2
  | none => dflt

/-- Event title construction of scrape_schedule (source lines 381-387). -/
def mkTitle (home : Bool) (opponent special : List Char) : List Char :=
  if home then
    if special ≠ [] then opponent ++ chars " at Penn State - " ++ special
    else opponent ++ chars " at Penn State"
  else chars "Penn State at " ++ opponent

/-- Location enhancement of scrape_schedule (source lines 399-401). -/
def mkLocation (home : Bool) (location special : List Char) : List Char :=
  if special ≠ [] ∧ home then special ++ chars " - " ++ location else location

/-- start + timedelta(hours=3, minutes=30), the fixed game duration. -/
def addGameDuration (dt : PyDateTime) : PyDateTime :=
  if dt.minute + 30 < 60 then addHoursSmall { dt with minute := dt.minute + 30 } 3
  else addHoursSmall { dt with minute := dt.minute + 30 - 60 } 4

/-- One iteration of the record-conversion loop of scrape_schedule (source
lines 318-421): skip records with missing opponent or location, look the
date, broadcast and special event up in the hardcoded tables, and drop the
record when parse_date_time fails. -/
def processGameData (hp : Bool) (now : PyDate) (r : RawGame) : Option GameInfo :=
  if r.opponent = [] ∨ r.location = [] then none
  else
    match parse_date_time hp now (lookupD date_mapping_table r.opponent sep1Chars)
        (r.time.getD tbaChars) with
    | none => none
    | some dt =>
      some
        { title := mkTitle r.is_home r.opponent (lookupD special_events_table r.opponent [])
          start := dt
          endTime := addGameDuration dt
          location := mkLocation r.is_home r.location (lookupD special_events_table r.opponent [])
          broadcast := lookupD broadcast_mapping_table r.opponent tbaChars
          is_home := r.is_home
          opponent := r.opponent
          date_str := lookupD date_mapping_table r.opponent sep1Chars
          time_str := r.time.getD tbaChars
          special := lookupD special_events_table r.opponent [] }

/-- The deduplication key of scrape_schedule: game date plus opponent. -/
def gameKey (g : GameInfo) : (Int × Int × Int) × List Char :=
  ((g.start.year, g.start.month, g.start.day), g.opponent)

/-- The duplicate-removal pass of scrape_schedule (source lines 433-446),
keeping the first game for each (date, opponent) key. -/
def dedupGames : List GameInfo → List ((Int × Int × Int) × List Char) → List GameInfo
  | [], _ => []
  | g :: rest, seen =>
    if gameKey g ∈ seen then dedupGames rest seen
    else g :: dedupGames rest (gameKey g :: seen)

/-- scrape_schedule from the point where raw game records exist (source
lines 318-459): convert each record, dropping failures, then
de-duplicate. -/
def scrape_schedule (hp : Bool) (now : PyDate) (raws : List RawGame) : List GameInfo :=
  dedupGames (raws.filterMap (processGameData hp now)) []

/-- create_calendar's event selection (source lines 471-474): only games
with a non-empty opponent, a non-empty location, and a start make it into
the written calendar.  The published calendar file is modelled as the list
of events written to it. -/
def create_calendar (games : List GameInfo) : List GameInfo :=
  games.filter (fun g => !g.opponent.isEmpty && !g.location.isEmpty)

/-- update_calendar (source lines 577-589) acting on the published
calendar file state: with no games it returns before any write, otherwise
create_calendar rewrites the file.  none models a file that does not
exist yet. -/
def update_calendar (games : List GameInfo) (calFile : Option (List GameInfo)) :
    Option (List GameInfo) :=
  if games = [] then calFile else some (create_calendar games)

/-- A concrete raw record for the Nevada home game, as the line scanner
would assemble it. -/
def nevadaRaw : RawGame :=
  { is_home := true
    opponent := chars "Nevada"
    location := chars "Beaver Stadium"
    time := some (chars "3:30 PM") }

/-- The game scrape_schedule builds from nevadaRaw. -/
def nevadaGame : GameInfo :=
  { title := chars "Nevada at Penn State - 107K Family Reunion"
    start := ⟨2025, 8, 30, 15, 30, some TzInfo.eastern⟩
    endTime := ⟨2025, 8, 30, 19, 0, some TzInfo.eastern⟩
    location := chars "107K Family Reunion - Beaver Stadium"
    broadcast := chars "CBS"
    is_home := true
    opponent := chars "Nevada"
    date_str := chars "Aug 30, 2025"
    time_str := chars "3:30 PM"
    special := chars "107K Family Reunion" }

/-- addHoursSmall never touches the tzinfo field. -/
theorem addHoursSmall_tz (dt : PyDateTime) (off : Int) :
    (addHoursSmall dt off).tz = dt.tz := by
  unfold addHoursSmall
  split_ifs <;> rfl

/-- The tzinfo of any datetime mkGameDatetime produces is decided by the
HAS_PYTZ flag alone. -/
theorem mkGameDatetime_tz {hp : Bool} {y m d h mi : Int} {dt : PyDateTime}
    (he : mkGameDatetime hp y m d h mi = some dt) :
    dt.tz = if hp then some TzInfo.eastern else none := by
  unfold mkGameDatetime at he
  by_cases hv : validDT y m d h mi
  · rw [if_pos hv] at he
    cases hp with
    | true =>
      injection he with he
      subst he
      rfl
    | false =>
      by_cases hy : (addHoursSmall ⟨y, m, d, h, mi, none⟩ (utcOffsetFor m)).year ≤ 9999
      · rw [if_pos hy] at he
        injection he with he
        subst he
        rw [addHoursSmall_tz]
        rfl
      · rw [if_neg hy] at he
        exact Option.noConfusion he
  · rw [if_neg hv] at he
    exact Option.noConfusion he

/-- With pytz available, mkGameDatetime returns exactly the localized wall
time it was given. -/
theorem mkGameDatetime_true_some {y m d h mi : Int} {dt : PyDateTime}
    (he : mkGameDatetime true y m d h mi = some dt) :
    dt = ⟨y, m, d, h, mi, some TzInfo.eastern⟩ := by
  unfold mkGameDatetime at he
  by_cases hv : validDT y m d h mi
  · rw [if_pos hv] at he
    injection he with he
    exact he.symm
  · rw [if_neg hv] at he
    exact Option.noConfusion he

/-- Inversion of parseCore: a successful parse passes through a resolved
month and day and the datetime construction step. -/
theorem parseCore_inv {hp : Bool} {fsy : Int} {ds ts : List Char} {dt : PyDateTime}
    (h : parseCore hp fsy ds ts = some dt) :
    ∃ m d yOpt, extractDate (fixWeekday weekdays ds) = (some m, some d, yOpt) ∧
      mkGameDatetime hp (yOpt.getD (inferYear fsy m)) m d
        (parseTime ts).1 (parseTime ts).2 = some dt := by
  unfold parseCore at h
  rcases hE : extractDate (fixWeekday weekdays ds) with ⟨m, d, y⟩
  rw [hE] at h
  rcases m with _ | m
  · exact Option.noConfusion h
  · rcases d with _ | d
    · exact Option.noConfusion h
    · exact ⟨m, d, y, rfl, h⟩

/-- Every game surviving deduplication was in the converted list. -/
theorem dedupGames_subset {l : List GameInfo}
    {seen : List ((Int × Int × Int) × List Char)} {g : GameInfo}
    (h : g ∈ dedupGames l seen) : g ∈ l := by
  induction l generalizing seen with
  | nil =>
    rw [dedupGames] at h
    exact absurd h (List.not_mem_nil g)
  | cons a t ih =>
    rw [dedupGames] at h
    split at h
    · exact List.mem_cons_of_mem _ (ih h)
    · rcases List.mem_cons.mp h with rfl | h2
      · exact List.mem_cons_self _ _
      · exact List.mem_cons_of_mem _ (ih h2)

/-- Every game scrape_schedule emits comes from converting one raw
record. -/
theorem mem_scrape {hp : Bool} {now : PyDate} {raws : List RawGame} {g : GameInfo}
    (h : g ∈ scrape_schedule hp now raws) :
    ∃ r, r ∈ raws ∧ processGameData hp now r = some g := by
  unfold scrape_schedule at h
  exact List.mem_filterMap.mp (dedupGames_subset h)

/-- Shape of any game the record-conversion loop emits: its opponent is
the raw record's, its date string is the table lookup on that opponent,
its time string is the raw time (or TBA), and its start is the successful
parse of exactly those two strings. -/
theorem processGameData_spec {hp : Bool} {now : PyDate} {r : RawGame} {g : GameInfo}
    (h : processGameData hp now r = some g) :
    g.opponent = r.opponent ∧
    g.date_str = lookupD date_mapping_table r.opponent sep1Chars ∧
    g.time_str = r.time.getD tbaChars ∧
    parse_date_time hp now g.date_str g.time_str = some g.start := by
  unfold processGameData at h
  by_cases hskip : r.opponent = [] ∨ r.location = []
  · rw [if_pos hskip] at h
    exact Option.noConfusion h
  · rw [if_neg hskip] at h
    rcases hpd : parse_date_time hp now (lookupD date_mapping_table r.opponent sep1Chars)
        (r.time.getD tbaChars) with _ | dt
    · rw [hpd] at h
      exact Option.noConfusion h
    · rw [hpd] at h
      injection h with h
      subst h
      exact ⟨rfl, rfl, rfl, hpd⟩

/-- Claim C1: when the date text's month and day cannot be resolved,
parse_date_time returns none (no default timestamp), and every game that
scrape_schedule emits carries a start produced by a successful
parse_date_time run on its recorded date and time strings — records whose
parse failed are dropped, never guessed. -/
theorem C1_failure_propagation :
    (∀ (hp : Bool) (now : PyDate) (ds ts : List Char),
      ((extractDate (fixWeekday weekdays ds)).1 = none ∨
        (extractDate (fixWeekday weekdays ds)).2.1 = none) →
      parse_date_time hp now ds ts = none) ∧
    (∀ (hp : Bool) (now : PyDate) (raws : List RawGame) (g : GameInfo),
      g ∈ scrape_schedule hp now raws →
      parse_date_time hp now g.date_str g.time_str = some g.start) := by
  constructor
  · intro hp now ds ts hf
    unfold parse_date_time parseCore
    rcases hE : extractDate (fixWeekday weekdays ds) with ⟨m, d, y⟩
    rw [hE] at hf
    rcases m with _ | m
    · rfl
    · rcases d with _ | d
      · rfl
      · simp at hf
  · intro hp now raws g hm
    obtain ⟨r, _, hpr⟩ := mem_scrape hm
    exact (processGameData_spec hpr).2.2.2

/-- Witness for C1 at concrete inputs: an unparseable date text yields
none, and the game built from the Nevada record has a start that is the
parse of its own date and time strings. -/
theorem C1_failure_propagation_witness :
    parse_date_time true ⟨2025, 9, 1⟩ (chars "mystery date") (chars "TBA") = none ∧
    parse_date_time true ⟨2025, 9, 1⟩ nevadaGame.date_str nevadaGame.time_str =
      some nevadaGame.start := by
  constructor
  · exact C1_failure_propagation.1 true ⟨2025, 9, 1⟩ (chars "mystery date") (chars "TBA")
      (by decide)
  · exact C1_failure_propagation.2 true ⟨2025, 9, 1⟩ [nevadaRaw] nevadaGame (by decide)

/-- Counterexample to claim C2: a candidate list of one game (fewer than
the claimed minimum of 10) is not rejected — update_calendar publishes
it. -/
theorem C2_min_count_refuted :
    [nevadaGame].length < 10 ∧
    update_calendar [nevadaGame] none = some [nevadaGame] ∧
    some [nevadaGame] ≠ (none : Option (List GameInfo)) := by
  refine ⟨by decide, by decide, by decide⟩

/-- Claim C2 as amended: the only batch update_calendar rejects is the
empty one — an empty games list leaves the published file untouched, and
any non-empty list, whatever its length, is published through
create_calendar.  There is no minimum-count threshold and no reason
value. -/
theorem C2_publish_gate_amended :
    ∀ (games : List GameInfo) (calFile : Option (List GameInfo)),
      (games = [] → update_calendar games calFile = calFile) ∧
      (games ≠ [] → update_calendar games calFile = some (create_calendar games)) := by
  intro games calFile
  constructor
  · intro h
    unfold update_calendar
    rw [if_pos h]
  · intro h
    unfold update_calendar
    rw [if_neg h]

/-- Witness for the amended C2 at concrete inputs. -/
theorem C2_publish_gate_amended_witness :
    update_calendar [] none = (none : Option (List GameInfo)) ∧
    update_calendar [nevadaGame] none = some [nevadaGame] := by
  constructor
  · exact (C2_publish_gate_amended [] none).1 rfl
  · rw [(C2_publish_gate_amended [nevadaGame] none).2 (by decide)]
    decide

/-- Claim C3: parse_date_time depends on the wall clock only through the
season-year resolver, so once the resolver's value is fixed the parse of a
given date and time string is one fixed result. -/
theorem C3_parse_time_invariance :
    ∀ (hp : Bool) (now1 now2 : PyDate) (ds ts : List Char),
      get_current_football_season_year now1 = get_current_football_season_year now2 →
      parse_date_time hp now1 ds ts = parse_date_time hp now2 ds ts := by
  intro hp now1 now2 ds ts he
  unfold parse_date_time
  rw [he]

/-- Witness for C3: two different wall-clock dates inside the same season
yield the same parse. -/
theorem C3_parse_time_invariance_witness :
    parse_date_time true ⟨2025, 9, 1⟩ (chars "Sep 20") (chars "TBA") =
      parse_date_time true ⟨2025, 10, 2⟩ (chars "Sep 20") (chars "TBA") :=
  C3_parse_time_invariance true ⟨2025, 9, 1⟩ ⟨2025, 10, 2⟩ (chars "Sep 20") (chars "TBA")
    (by decide)

/-- Claim C4: every game scrape_schedule emits takes its date string from
the hardcoded 2025 opponent-to-date table, with the literal "Sep 1, 2025"
for opponents the table does not list; the raw records carry no date at
all, so no date is ever read from the fetched page. -/
theorem C4_dates_from_table :
    ∀ (hp : Bool) (now : PyDate) (raws : List RawGame) (g : GameInfo),
      g ∈ scrape_schedule hp now raws →
      g.date_str = lookupD date_mapping_table g.opponent sep1Chars := by
  intro hp now raws g hm
  obtain ⟨r, _, hpr⟩ := mem_scrape hm
  obtain ⟨ho, hd, _, _⟩ := processGameData_spec hpr
  rw [hd, ho]

/-- Witness for C4 on the Nevada record. -/
theorem C4_dates_from_table_witness :
    nevadaGame.date_str = lookupD date_mapping_table nevadaGame.opponent sep1Chars :=
  C4_dates_from_table true ⟨2025, 9, 1⟩ [nevadaRaw] nevadaGame (by decide)

/-- Claim C5: the year inferred for a date carrying no explicit year is
the season value Y for months 8-12 and Y+1 for months 1-4 and 5-7. -/
theorem C5_year_inference :
    ∀ (fsy m : Int),
      (8 ≤ m ∧ m ≤ 12 → inferYear fsy m = fsy) ∧
      (1 ≤ m ∧ m ≤ 4 → inferYear fsy m = fsy + 1) ∧
      (5 ≤ m ∧ m ≤ 7 → inferYear fsy m = fsy + 1) := by
  intro fsy m
  refine ⟨fun h => ?_, fun h => ?_, fun h => ?_⟩ <;>
    · unfold inferYear
      split_ifs <;> omega

/-- Witness for C5 at one month of each range. -/
theorem C5_year_inference_witness :
    inferYear 2025 9 = 2025 ∧ inferYear 2025 1 = 2026 ∧ inferYear 2025 6 = 2026 :=
  ⟨(C5_year_inference 2025 9).1 (by decide),
   (C5_year_inference 2025 1).2.1 (by decide),
   (C5_year_inference 2025 6).2.2 (by decide)⟩

/-- Claim C6: the season-year resolver returns the date's year for months
8-12, the previous year for month 1, and the year itself for months
2-7. -/
theorem C6_season_resolver :
    ∀ (y m d : Int),
      (8 ≤ m → get_current_football_season_year ⟨y, m, d⟩ = y) ∧
      (m = 1 → get_current_football_season_year ⟨y, m, d⟩ = y - 1) ∧
      (2 ≤ m ∧ m ≤ 7 → get_current_football_season_year ⟨y, m, d⟩ = y) := by
  intro y m d
  refine ⟨fun h => ?_, fun h => ?_, fun h => ?_⟩ <;>
    · unfold get_current_football_season_year
      dsimp only
      split_ifs <;> omega

/-- Witness for C6 at the three dates the spec lists. -/
theorem C6_season_resolver_witness :
    get_current_football_season_year ⟨2025, 1, 15⟩ = 2024 ∧
    get_current_football_season_year ⟨2025, 9, 1⟩ = 2025 ∧
    get_current_football_season_year ⟨2025, 5, 1⟩ = 2025 := by
  refine ⟨?_, ?_, ?_⟩
  · have h := (C6_season_resolver 2025 1 15).2.1 rfl
    rw [h]
    decide
  · exact (C6_season_resolver 2025 9 1).1 (by decide)
  · exact (C6_season_resolver 2025 5 1).2.2 (by decide)

/-- Counterexample to claim C7: the time text "4 PM/noon" contains the
word noon (case-insensitively), yet the parse yields 16:00, because the
source checks for noon only after cutting to the first slash-separated
option. -/
theorem C7_noon_refuted :
    parseCore true 2025 (chars "Sep 20") (chars "4 PM/noon") =
      some ⟨2025, 9, 20, 16, 0, some TzInfo.eastern⟩ ∧
    isSub (chars "noon") (lowerStr (chars "4 PM/noon")) = true ∧
    (16 : Int) ≠ 12 := by
  refine ⟨by decide, by decide, by decide⟩

/-- Claim C7 as amended: empty, TBA or TBD time text leaves the default
13:00 in place; time text whose first slash-separated option contains the
word noon yields exactly 12:00 (the noon rule does not fire when noon
appears only in a later option); and in pytz mode a successful parse's
time of day is exactly what the time branch computed. -/
theorem C7_time_defaults_amended :
    ∀ ts : List Char,
      ((ts = [] ∨ lowerStr ts = chars "tba" ∨ lowerStr ts = chars "tbd") →
        parseTime ts = (13, 0)) ∧
      (¬(ts = [] ∨ lowerStr ts = chars "tba" ∨ lowerStr ts = chars "tbd") →
        isSub (chars "NOON") (timeToken ts) = true → parseTime ts = (12, 0)) ∧
      (∀ (fsy : Int) (ds : List Char) (dt : PyDateTime),
        parseCore true fsy ds ts = some dt →
        dt.hour = (parseTime ts).1 ∧ dt.minute = (parseTime ts).2) := by
  intro ts
  refine ⟨fun h => ?_, fun h hn => ?_, fun fsy ds dt hp => ?_⟩
  · unfold parseTime
    rw [if_pos h]
  · unfold parseTime
    rw [if_neg h, if_pos hn]
  · obtain ⟨m, d, y, _, hmk⟩ := parseCore_inv hp
    rw [mkGameDatetime_true_some hmk]
    exact ⟨rfl, rfl⟩

/-- Witness for the amended C7: TBA keeps 13:00, noon gives 12:00, and a
concrete pytz-mode parse carries the computed time of day. -/
theorem C7_time_defaults_amended_witness :
    parseTime (chars "TBA") = (13, 0) ∧
    parseTime (chars "noon") = (12, 0) ∧
    ((⟨2025, 9, 20, 13, 0, some TzInfo.eastern⟩ : PyDateTime).hour =
        (parseTime (chars "TBA")).1 ∧
      (⟨2025, 9, 20, 13, 0, some TzInfo.eastern⟩ : PyDateTime).minute =
        (parseTime (chars "TBA")).2) := by
  refine ⟨?_, ?_, ?_⟩
  · exact (C7_time_defaults_amended (chars "TBA")).1 (by decide)
  · exact (C7_time_defaults_amended (chars "noon")).2.1 (by decide) (by decide)
  · exact (C7_time_defaults_amended (chars "TBA")).2.2 2025 (chars "Sep 20")
      ⟨2025, 9, 20, 13, 0, some TzInfo.eastern⟩ (by decide)

/-- Counterexample to claim C8: with HAS_PYTZ false, parse_date_time
returns a timestamp whose tzinfo is none — a naive datetime, produced by
the offset-shifting fallback path. -/
theorem C8_naive_path_refuted :
    parse_date_time false ⟨2025, 9, 1⟩ (chars "Aug 30, 2025") (chars "TBA") =
      some ⟨2025, 8, 30, 17, 0, none⟩ ∧
    (⟨2025, 8, 30, 17, 0, none⟩ : PyDateTime).tz = none := by
  refine ⟨by decide, rfl⟩

/-- Claim C8 as amended: with pytz available every successful
parse_date_time result is tagged US/Eastern; without pytz, every
successful result is naive (its wall time shifted to UTC by the simplified
offset). -/
theorem C8_timezone_by_mode :
    ∀ (now : PyDate) (ds ts : List Char) (dt : PyDateTime),
      (parse_date_time true now ds ts = some dt → dt.tz = some TzInfo.eastern) ∧
      (parse_date_time false now ds ts = some dt → dt.tz = none) := by
  intro now ds ts dt
  constructor
  · intro h
    unfold parse_date_time at h
    obtain ⟨m, d, y, _, hmk⟩ := parseCore_inv h
    simpa using mkGameDatetime_tz hmk
  · intro h
    unfold parse_date_time at h
    obtain ⟨m, d, y, _, hmk⟩ := parseCore_inv h
    simpa using mkGameDatetime_tz hmk

/-- Witness for the amended C8 on a concrete date in both modes. -/
theorem C8_timezone_by_mode_witness :
    (⟨2025, 8, 30, 13, 0, some TzInfo.eastern⟩ : PyDateTime).tz = some TzInfo.eastern ∧
    (⟨2025, 8, 30, 17, 0, none⟩ : PyDateTime).tz = none := by
  constructor
  · exact (C8_timezone_by_mode ⟨2025, 9, 1⟩ (chars "Aug 30, 2025") (chars "TBA")
      ⟨2025, 8, 30, 13, 0, some TzInfo.eastern⟩).1 (by decide)
  · exact (C8_timezone_by_mode ⟨2025, 9, 1⟩ (chars "Aug 30, 2025") (chars "TBA")
      ⟨2025, 8, 30, 17, 0, none⟩).2 (by decide)

/-- Counterexample to claim C9: the slash-form date 9/6/75 carries the
two-digit year 75 (> 50), which the claim maps to 1975, but the code adds
2000 to every two-digit year and parses it as 2075. -/
theorem C9_century_threshold_refuted :
    parse_date_time true ⟨2025, 9, 1⟩ (chars "9/6/75") (chars "TBA") =
      some ⟨2075, 9, 6, 13, 0, some TzInfo.eastern⟩ ∧
    (2075 : Int) ≠ 1975 := by
  refine ⟨by decide, by decide⟩

/-- Claim C9 as amended: every two-digit year in a slash-form date is
normalized into the 2000s by adding 2000 — there is no >50 century
threshold mapping to the 1900s. -/
theorem C9_two_digit_year_amended :
    (∀ y : Int, 0 ≤ y → y < 100 → normYear y = y + 2000) ∧
    slashParse (chars "9/6/75") = (some 9, some 6, some 2075) := by
  constructor
  · intro y _ hy
    unfold normYear
    rw [if_pos hy]
  · decide

/-- Witness for the amended C9 at the two-digit year 75. -/
theorem C9_two_digit_year_amended_witness : normYear 75 = 2075 := by
  rw [C9_two_digit_year_amended.1 75 (by decide) (by decide)]
  decide

/-- Claim C10: a scrape cycle with zero games performs no write —
update_calendar returns the published calendar file state unchanged. -/
theorem C10_empty_scrape_preserves_calendar :
    ∀ calFile : Option (List GameInfo), update_calendar [] calFile = calFile := by
  intro calFile
  rfl

end Script
